import Mathlib

set_option maxRecDepth 8192

/- Shallow embedding of the bondiano/build-own-zod runtime schema-validation
   engine.  The repository contains two encodings of the engine:

   * the class-based encoding (`ZodType` and its subclasses, file
     src/unnamed/part_000), embedded here as `ZodSchema` with `parse`;
   * the interface-based encoding (file src/src/schema.ts), embedded here as
     `TsSchema` with `tparse`.

   JavaScript values are modelled by `Value`.  Thrown JavaScript errors are
   modelled by `JsErr` for the class-based encoding (a `TypeError` instance
   versus a plain `Error` instance - the distinction the union/intersection
   `catch` blocks test with `instanceof TypeError`) and by `TsErr` for the
   interface-based encoding (a `ZodTypeError` versus the runtime fault raised
   by reading `.parse` off `undefined`). -/

inductive Value : Type where
  | undefined : Value
  | vnull : Value
  | str : String → Value
  | num : Int → Value
  | arr : List Value → Value
  | obj : List (String × Value) → Value

/- First-match lookup of a property key in a record, as JavaScript property
   access on a plain object (keys of an object literal are unique). -/
def lookupKey : List (String × Value) → String → Option Value
  | [], _ => none
  | (k, x) :: rest, key => if k = key then some x else lookupKey rest key

/- JavaScript property read `v[key]`: a missing key yields `undefined`;
   arrays expose `length` and their decimal indices. -/
def jsGet (v : Value) (key : String) : Value :=
  match v with
  | .obj fields => (lookupKey fields key).getD .undefined
  | .arr elems =>
      if key = "length" then .num elems.length
      else
        match key.toNat? with
        | some i => if toString i = key then elems.getD i .undefined else .undefined
        | none => .undefined
  | _ => .undefined

/- A thrown error in the class-based encoding: `TypeError(msg)` or plain
   `Error(msg)`.  Only the former satisfies `instanceof TypeError`. -/
inductive JsErr : Type where
  | typeError : String → JsErr
  | error : String → JsErr

/- Source interface ZodChecker<T> { message; checker }. -/
structure ZodChecker (α : Type) : Type where
  message : String
  checker : α → Bool

/- The refinement loop of ZodString.parse / ZodNumber.parse: run the checkers
   in order, return the first failing checker's message. -/
def runCheckers {α : Type} : List (ZodChecker α) → α → Option String
  | [], _ => none
  | c :: rest, value =>
      if c.checker value then runCheckers rest value else some c.message

def isOk {ε α : Type} : Except ε α → Bool
  | .ok _ => true
  | .error _ => false

/- The catch block of ZodUnion.parse / ZodIntersection.parse: an error is
   pushed onto `errors` only when it is `instanceof TypeError`; every other
   thrown error is caught and discarded. -/
def branchErrs : Except JsErr Value → List String
  | .ok _ => []
  | .error (.typeError m) => [m]
  | .error (.error _) => []

/- Tail of ZodIntersection.parse: both sides have been attempted; throw only
   when `errors.length === 2`, otherwise return the original input value. -/
def intersectionOutcome (resultLeft resultRight : Except JsErr Value)
    (value : Value) : Except JsErr Value :=
  if (branchErrs resultLeft ++ branchErrs resultRight).length = 2 then
    .error (.error ("Invalid values: \n " ++
      String.intercalate "\n" (branchErrs resultLeft ++ branchErrs resultRight)))
  else .ok value

/- The class-based schema tree: one constructor per ZodType subclass. -/
inductive ZodSchema : Type where
  | zUnknown : ZodSchema
  | zString : List (ZodChecker String) → ZodSchema
  | zNumber : List (ZodChecker Int) → ZodSchema
  | zArray : ZodSchema → ZodSchema
  | zObject : List (String × ZodSchema) → ZodSchema
  | zOptional : ZodSchema → ZodSchema
  | zUnion : List ZodSchema → ZodSchema
  | zIntersection : ZodSchema → ZodSchema → ZodSchema

mutual

/- `parse` of every ZodType subclass in src/unnamed/part_000.
   `zString`/`zNumber`: `typeof` check throwing `TypeError`, then checkers;
   a failing checker throws a plain `Error(checker.message)`.
   `zArray`: `Array.isArray` check, element failures propagate, returns the
   original array.  `zObject`: `typeof value !== 'object' || value == null`
   throws a plain `Error('Not an object')` (arrays pass this check); each
   declared field is read off the input and validated; returns the input.
   `zOptional`: `undefined` short-circuits to success.  `zUnion` and
   `zIntersection` delegate to the loops below. -/
def parse : ZodSchema → Value → Except JsErr Value
  | .zUnknown, v => .ok v
  | .zString cs, v =>
    match v with
    | .str s =>
      match runCheckers cs s with
      | some msg => .error (.error msg)
      | none => .ok (.str s)
    | _ => .error (.typeError "Not a string")
  | .zNumber cs, v =>
    match v with
    | .num x =>
      match runCheckers cs x with
      | some msg => .error (.error msg)
      | none => .ok (.num x)
    | _ => .error (.typeError "Not a number")
  | .zArray element, v =>
    match v with
    | .arr elems =>
      match parseElems element elems with
      | .error e => .error e
      | .ok _ => .ok (.arr elems)
    | _ => .error (.typeError "Not an array")
  | .zObject fields, v =>
    match v with
    | .arr _ | .obj _ =>
      match parseFields v fields with
      | .error e => .error e
      | .ok _ => .ok v
    | _ => .error (.error "Not an object")
  | .zOptional child, v =>
    match v with
    | .undefined => .ok .undefined
    | _ => parse child v
  | .zUnion types, v => unionGo v types.length types []
  | .zIntersection left right, v =>
    intersectionOutcome (parse left v) (parse right v) v
termination_by s _ => (sizeOf s, 0)

/- The `for (const v of value) this.element.parse(v)` loop of ZodArray.parse:
   the first element failure propagates. -/
def parseElems (element : ZodSchema) : List Value → Except JsErr Unit
  | [] => .ok ()
  | x :: rest =>
    match parse element x with
    | .error e => .error e
    | .ok _ => parseElems element rest
termination_by xs => (sizeOf element, xs.length + 1)

/- The `for (const [k, v] of Object.entries(this.fields))` loop of
   ZodObject.parse: each declared field's schema validates `recordValue[k]`;
   the first failure propagates. -/
def parseFields (v : Value) : List (String × ZodSchema) → Except JsErr Unit
  | [] => .ok ()
  | (key, sch) :: rest =>
    match parse sch (jsGet v key) with
    | .error e => .error e
    | .ok _ => parseFields v rest
termination_by fields => (sizeOf fields, 0)

/- The branch loop of ZodUnion.parse: return the first branch success;
   a branch throwing a `TypeError` has its message pushed onto the
   accumulator, any other thrown error is swallowed; when the loop ends the
   union throws only if `errors.length === this.types.length`, otherwise it
   falls off the function and returns `undefined`. -/
def unionGo (v : Value) (total : Nat) :
    List ZodSchema → List String → Except JsErr Value
  | [], acc =>
    if acc.length = total then
      .error (.error ("Invalid values: \n " ++ String.intercalate "\n" acc))
    else .ok .undefined
  | t :: rest, acc =>
    match parse t v with
    | .ok w => .ok w
    | .error (.typeError m) => unionGo v total rest (acc ++ [m])
    | .error (.error _) => unionGo v total rest acc
termination_by ts _ => (sizeOf ts, 0)

end

/- ZodString.min: returns a new ZodString whose checker list is the
   receiver's list (`this.definition?.checkers ?? []`) with one appended
   predicate carrying a fixed message. -/
def stringMin (checkers : List (ZodChecker String)) (minLen : Nat) : ZodSchema :=
  .zString (checkers ++
    [{ message := "Must be at least " ++ toString minLen ++ " characters",
       checker := fun value => decide (value.length ≥ minLen) }])

/- ZodString.max, same shape as ZodString.min. -/
def stringMax (checkers : List (ZodChecker String)) (maxLen : Nat) : ZodSchema :=
  .zString (checkers ++
    [{ message := "Must be at most " ++ toString maxLen ++ " characters",
       checker := fun value => decide (value.length ≤ maxLen) }])

/- ZodNumber.min. -/
def numberMin (checkers : List (ZodChecker Int)) (minVal : Int) : ZodSchema :=
  .zNumber (checkers ++
    [{ message := "Must be at least " ++ toString minVal,
       checker := fun value => decide (value ≥ minVal) }])

/- ZodNumber.max. -/
def numberMax (checkers : List (ZodChecker Int)) (maxVal : Int) : ZodSchema :=
  .zNumber (checkers ++
    [{ message := "Must be at most " ++ toString maxVal,
       checker := fun value => decide (value ≤ maxVal) }])

/- Errors of the interface-based encoding (src/src/schema.ts): `ZodTypeError`
   (which extends `Error`, not `TypeError`), and the runtime fault raised by
   `fields[key].parse(value)` when `key` is not a declared field. -/
inductive TsErr : Type where
  | zodTypeError : String → TsErr
  | jsFault : String → TsErr

/- The interface-based schema kinds of src/src/schema.ts. -/
inductive TsSchema : Type where
  | tUnknown : TsSchema
  | tString : TsSchema
  | tNumber : TsSchema
  | tArray : TsSchema → TsSchema
  | tObject : List (String × TsSchema) → TsSchema

/- Property access `fields[key]` on the schema's field record. -/
def lookupSchema : List (String × TsSchema) → String → Option TsSchema
  | [], _ => none
  | (k, sch) :: rest, key => if k = key then some sch else lookupSchema rest key

/- `Object.entries(recordValue)`: an object yields its own entries in
   insertion order; an array yields its index/element pairs (`length` is not
   enumerable); primitives have no enumerable own entries. -/
def jsEntries (v : Value) : List (String × Value) :=
  match v with
  | .obj fields => fields
  | .arr elems => elems.enum.map fun p => (toString p.1, p.2)
  | _ => []

theorem lookupSchema_sizeOf :
    ∀ (fields : List (String × TsSchema)) (key : String) (sch : TsSchema),
      lookupSchema fields key = some sch → sizeOf sch < sizeOf fields := by
  intro fields
  induction fields with
  | nil => intro key sch h; simp [lookupSchema] at h
  | cons head rest ih =>
    intro key sch h
    obtain ⟨k, s⟩ := head
    simp only [lookupSchema] at h
    by_cases hk : k = key
    · rw [if_pos hk] at h
      injection h with h
      subst h
      simp
      omega
    · rw [if_neg hk] at h
      have := ih key sch h
      simp
      omega

mutual

/- `parse` of the interface-based encoding (src/src/schema.ts).
   `string`/`number`: `typeof` check throwing `ZodTypeError`; no refinements
   exist in this encoding.  `array`: `Array.isArray` check, then
   `value.map(item => element.parse(item))` returning the mapped array.
   `object`: `typeof value !== 'object' || value === null` check, then
   iterates the INPUT's entries, validating each against `fields[key]` -
   an entry whose key is not declared makes `fields[key]` `undefined`, so the
   `.parse` call raises a runtime fault; returns the input value. -/
def tparse : TsSchema → Value → Except TsErr Value
  | .tUnknown, v => .ok v
  | .tString, v =>
    match v with
    | .str s => .ok (.str s)
    | _ => .error (.zodTypeError "Invalid string")
  | .tNumber, v =>
    match v with
    | .num x => .ok (.num x)
    | _ => .error (.zodTypeError "Invalid number")
  | .tArray element, v =>
    match v with
    | .arr elems =>
      match tparseElems element elems with
      | .error e => .error e
      | .ok ws => .ok (.arr ws)
    | _ => .error (.zodTypeError "Invalid array")
  | .tObject fields, v =>
    match v with
    | .arr _ | .obj _ =>
      match tparseEntries fields (jsEntries v) with
      | .error e => .error e
      | .ok _ => .ok v
    | _ => .error (.zodTypeError "Invalid object")
termination_by s _ => (sizeOf s, 0)

/- The `Object.entries(recordValue).forEach(([key, value]) =>
   fields[key].parse(value))` loop: the first thrown error aborts it. -/
def tparseEntries (fields : List (String × TsSchema)) :
    List (String × Value) → Except TsErr Unit
  | [] => .ok ()
  | (key, x) :: rest =>
    match h : lookupSchema fields key with
    | some sch =>
      match tparse sch x with
      | .error e => .error e
      | .ok _ => tparseEntries fields rest
    | none =>
      .error (.jsFault "Cannot read properties of undefined (reading 'parse')")
termination_by entries => (sizeOf fields, entries.length + 1)
decreasing_by
  · exact Prod.Lex.left _ _ (lookupSchema_sizeOf fields key sch h)
  · exact Prod.Lex.right _ (by simp)

/- The `value.map((item) => element.parse(item))` traversal of `array`. -/
def tparseElems (element : TsSchema) : List Value → Except TsErr (List Value)
  | [] => .ok []
  | x :: rest =>
    match tparse element x with
    | .error e => .error e
    | .ok w =>
      match tparseElems element rest with
      | .error e => .error e
      | .ok ws => .ok (w :: ws)
termination_by xs => (sizeOf element, xs.length + 1)

end

mutual

/- The translation between the two encodings: each interface-based schema
   kind denotes the class-based schema of the same shape (string and number
   carry no checkers in the interface-based encoding). -/
def toZod : TsSchema → ZodSchema
  | .tUnknown => .zUnknown
  | .tString => .zString []
  | .tNumber => .zNumber []
  | .tArray element => .zArray (toZod element)
  | .tObject fields => .zObject (toZodFields fields)
termination_by s => sizeOf s

def toZodFields : List (String × TsSchema) → List (String × ZodSchema)
  | [] => []
  | (k, sch) :: rest => (k, toZod sch) :: toZodFields rest
termination_by fields => sizeOf fields

end

/- The fragment of the interface-based encoding containing no object node. -/
def objectFree : TsSchema → Bool
  | .tUnknown => true
  | .tString => true
  | .tNumber => true
  | .tArray element => objectFree element
  | .tObject _ => false

/- Spec-side predicates used to state the refinement claims. -/
def strLenAtLeast (n : Nat) : Value → Bool
  | .str s => decide (n ≤ s.length)
  | _ => false

def strLenAtMost (n : Nat) : Value → Bool
  | .str s => decide (s.length ≤ n)
  | _ => false

def numAtLeast (m : Int) : Value → Bool
  | .num x => decide (m ≤ x)
  | _ => false

def numAtMost (m : Int) : Value → Bool
  | .num x => decide (x ≤ m)
  | _ => false

@[simp] theorem isOk_ok {ε α : Type} (a : α) :
    isOk (Except.ok a : Except ε α) = true := rfl

@[simp] theorem isOk_error {ε α : Type} (e : ε) :
    isOk (Except.error e : Except ε α) = false := rfl

theorem runCheckers_append {α : Type} (cs₁ cs₂ : List (ZodChecker α)) (v : α) :
    runCheckers (cs₁ ++ cs₂) v =
      match runCheckers cs₁ v with
      | some m => some m
      | none => runCheckers cs₂ v := by
  induction cs₁ with
  | nil => simp [runCheckers]
  | cons c rest ih =>
    by_cases h : c.checker v = true
    · simp [runCheckers, h, ih]
    · simp [runCheckers, h]

theorem runCheckers_prefix_pass {α : Type} (cs₁ rest : List (ZodChecker α))
    (v : α) (h : ∀ c ∈ cs₁, c.checker v = true) :
    runCheckers (cs₁ ++ rest) v = runCheckers rest v := by
  induction cs₁ with
  | nil => simp
  | cons c cs ih =>
    have hc : c.checker v = true := h c (by simp)
    simp only [List.cons_append, runCheckers, hc, if_pos]
    exact ih fun c' hc' => h c' (by simp [hc'])

theorem unionGo_isOk_of_lt (v : Value) (total : Nat) :
    ∀ (ts : List ZodSchema) (acc : List String),
      acc.length + ts.length < total → isOk (unionGo v total ts acc) = true := by
  intro ts
  induction ts with
  | nil =>
    intro acc h
    simp only [unionGo]
    rw [if_neg (by simp at h; omega)]
    rfl
  | cons t rest ih =>
    intro acc h
    simp only [unionGo]
    cases hp : parse t v with
    | ok w => simp
    | error e =>
      cases e with
      | typeError m =>
        simp only []
        exact ih (acc ++ [m]) (by simp at h ⊢; omega)
      | error m =>
        simp only []
        exact ih acc (by simp at h ⊢; omega)

theorem unionGo_fail_iff (v : Value) (total : Nat) :
    ∀ (ts : List ZodSchema) (acc : List String),
      acc.length + ts.length = total →
      (isOk (unionGo v total ts acc) = false ↔
        ∀ t ∈ ts, ∃ m, parse t v = .error (.typeError m)) := by
  intro ts
  induction ts with
  | nil =>
    intro acc h
    simp only [List.length_nil, Nat.add_zero] at h
    simp only [unionGo]
    rw [if_pos h]
    simp
  | cons t rest ih =>
    intro acc h
    have hlen : acc.length + (rest.length + 1) = total := by
      simpa [Nat.add_comm, Nat.add_assoc] using h
    cases hp : parse t v with
    | ok w =>
      have hrw : unionGo v total (t :: rest) acc = .ok w := by
        simp [unionGo, hp]
      rw [hrw]
      simp only [isOk_ok]
      constructor
      · intro hfalse; cases hfalse
      · intro hall
        obtain ⟨m, hm⟩ := hall t (by simp)
        rw [hp] at hm
        exact Except.noConfusion hm
    | error e =>
      cases e with
      | typeError m =>
        have hrw : unionGo v total (t :: rest) acc =
            unionGo v total rest (acc ++ [m]) := by
          simp [unionGo, hp]
        rw [hrw]
        rw [ih (acc ++ [m])
          (by simp only [List.length_append, List.length_cons, List.length_nil]; omega)]
        constructor
        · intro hrest t' ht'
          rcases List.mem_cons.mp ht' with rfl | hmem
          · exact ⟨m, hp⟩
          · exact hrest t' hmem
        · intro hall t' ht'
          exact hall t' (List.mem_cons_of_mem _ ht')
      | error m =>
        have hrw : unionGo v total (t :: rest) acc = unionGo v total rest acc := by
          simp [unionGo, hp]
        rw [hrw]
        have hok : isOk (unionGo v total rest acc) = true :=
          unionGo_isOk_of_lt v total rest acc (by omega)
        rw [hok]
        constructor
        · intro hfalse; cases hfalse
        · intro hall
          obtain ⟨m', hm'⟩ := hall t (by simp)
          rw [hp] at hm'
          simp at hm'

theorem union_fail_iff (ts : List ZodSchema) (v : Value) :
    isOk (parse (.zUnion ts) v) = false ↔
      ∀ t ∈ ts, ∃ m, parse t v = .error (.typeError m) := by
  have h := unionGo_fail_iff v ts.length ts [] (by simp)
  simpa [parse] using h

theorem intersection_fail_iff (l r : ZodSchema) (v : Value) :
    isOk (parse (.zIntersection l r) v) = false ↔
      (∃ m, parse l v = .error (.typeError m)) ∧
      (∃ m, parse r v = .error (.typeError m)) := by
  have hrw : parse (.zIntersection l r) v =
      intersectionOutcome (parse l v) (parse r v) v := by
    simp [parse]
  rw [hrw]
  cases hl : parse l v with
  | ok wl =>
    cases hr : parse r v with
    | ok wr => simp [intersectionOutcome, branchErrs]
    | error er => cases er <;> simp [intersectionOutcome, branchErrs]
  | error el =>
    cases el with
    | typeError ml =>
      cases hr : parse r v with
      | ok wr => simp [intersectionOutcome, branchErrs]
      | error er => cases er <;> simp [intersectionOutcome, branchErrs]
    | error ml =>
      cases hr : parse r v with
      | ok wr => simp [intersectionOutcome, branchErrs]
      | error er => cases er <;> simp [intersectionOutcome, branchErrs]

theorem runCheckers_append_single {α : Type} (cs : List (ZodChecker α))
    (c : ZodChecker α) (x : α) :
    (runCheckers (cs ++ [c]) x).isNone =
      ((runCheckers cs x).isNone && c.checker x) := by
  rw [runCheckers_append]
  cases h : runCheckers cs x with
  | some m => simp
  | none => cases hc : c.checker x <;> simp [runCheckers, hc]

theorem parse_zString_isOk (cs : List (ZodChecker String)) (v : Value) :
    isOk (parse (.zString cs) v) =
      match v with
      | .str s => (runCheckers cs s).isNone
      | _ => false := by
  cases v
  case str s =>
    simp only [parse]
    cases h : runCheckers cs s <;> simp [h]
  all_goals simp [parse]

theorem parse_zNumber_isOk (cs : List (ZodChecker Int)) (v : Value) :
    isOk (parse (.zNumber cs) v) =
      match v with
      | .num x => (runCheckers cs x).isNone
      | _ => false := by
  cases v
  case num x =>
    simp only [parse]
    cases h : runCheckers cs x <;> simp [h]
  all_goals simp [parse]

theorem isOk_bind_shape {ε α β : Type} (r : Except ε α) (f : α → β) :
    isOk (match r with
          | .error e => (.error e : Except ε β)
          | .ok a => .ok (f a)) = isOk r := by
  cases r <;> rfl

theorem tparseEntries_cons (fields : List (String × TsSchema)) (key : String)
    (x : Value) (rest : List (String × Value)) :
    tparseEntries fields ((key, x) :: rest) =
      match lookupSchema fields key with
      | some sch =>
        match tparse sch x with
        | .error e => .error e
        | .ok _ => tparseEntries fields rest
      | none =>
        .error (.jsFault "Cannot read properties of undefined (reading 'parse')") := by
  simp only [tparseEntries]
  split
  · rename_i sch hsch
    rw [hsch]
  · rename_i hnone
    rw [hnone]

theorem tparseElems_isOk (e : TsSchema) (xs : List Value) :
    isOk (tparseElems e xs) = xs.all fun x => isOk (tparse e x) := by
  induction xs with
  | nil => simp [tparseElems]
  | cons x rest ih =>
    simp only [tparseElems, List.all_cons]
    cases hx : tparse e x with
    | error err => simp [hx]
    | ok w =>
      rw [← ih]
      cases hr : tparseElems e rest <;> simp [hr]

theorem parseElems_isOk (e : ZodSchema) (xs : List Value) :
    isOk (parseElems e xs) = xs.all fun x => isOk (parse e x) := by
  induction xs with
  | nil => simp [parseElems]
  | cons x rest ih =>
    simp only [parseElems, List.all_cons]
    cases hx : parse e x with
    | error err => simp [hx]
    | ok w =>
      rw [← ih]
      simp

theorem agree_object_free_aux :
    ∀ (n : Nat) (S : TsSchema), sizeOf S ≤ n → objectFree S = true →
      ∀ v, isOk (tparse S v) = isOk (parse (toZod S) v) := by
  intro n
  induction n with
  | zero =>
    intro S hs
    exact absurd hs (by cases S <;> simp)
  | succ n ih =>
    intro S hs hfree v
    cases S with
    | tUnknown => cases v <;> simp [tparse, toZod, parse]
    | tString => cases v <;> simp [tparse, toZod, parse, runCheckers]
    | tNumber => cases v <;> simp [tparse, toZod, parse, runCheckers]
    | tObject fields => simp [objectFree] at hfree
    | tArray e =>
      have hfree' : objectFree e = true := by simpa [objectFree] using hfree
      have hse : sizeOf e ≤ n := by simp at hs; omega
      cases v with
      | arr elems =>
        simp only [tparse, toZod, parse]
        have h1 : isOk (tparseElems e elems) = isOk (parseElems (toZod e) elems) := by
          rw [tparseElems_isOk, parseElems_isOk]
          congr 1
          funext x
          exact ih e hse hfree' x
        cases h2 : tparseElems e elems with
        | error er =>
          cases h4 : parseElems (toZod e) elems with
          | error er2 => simp [h2, h4]
          | ok u =>
            rw [h2, h4] at h1
            cases h1
        | ok ws =>
          cases h4 : parseElems (toZod e) elems with
          | error er2 =>
            rw [h2, h4] at h1
            cases h1
          | ok u => simp [h2, h4]
      | undefined => simp [tparse, toZod, parse]
      | vnull => simp [tparse, toZod, parse]
      | str s => simp [tparse, toZod, parse]
      | num x => simp [tparse, toZod, parse]
      | obj fields => simp [tparse, toZod, parse]

theorem agree_object_free (S : TsSchema) (h : objectFree S = true) (v : Value) :
    isOk (tparse S v) = isOk (parse (toZod S) v) :=
  agree_object_free_aux (sizeOf S) S le_rfl h v

/-- C1.  The claim says `Union([A, B]).parse(v)` succeeds iff some branch
succeeds and fails with a `NoMatchingVariant` failure when every branch
fails.  The code violates it: `Union([String.min(5), Number]).parse("ab")`
has both branches fail (a `ConstraintViolation` and a `TypeMismatch`), yet
the union's catch counts only `TypeError` instances, so `errors.length` is
1 of 2, the final throw is skipped and the parse falls off the function,
succeeding with `undefined`.  This theorem evaluates the embedded code at
that failing input. -/
theorem union_accepts_value_rejected_by_all_branches :
    parse (.zUnion [stringMin [] 5, .zNumber []]) (.str "ab") = .ok .undefined := by
  simp only [stringMin, parse, unionGo]
  rfl

/-- C2.  The claim says `Intersection(A, B).parse(v)` succeeds iff both
children succeed, and fails when exactly one child fails.  The code violates
it: `Intersection(String, Number).parse("x")` has the right side fail with
`TypeError('Not a number')`, so `errors.length` is 1, the `=== 2` guard is
not met and the intersection returns the input as a success. -/
theorem intersection_accepts_when_one_side_fails :
    parse (.zIntersection (.zString []) (.zNumber [])) (.str "x") =
      .ok (.str "x") := by
  simp only [parse, runCheckers]
  rfl

/-- C3.  The claim says extra keys are ignored by object schemas, e.g.
`Object({a: String}).parse({a: "x", extra: 1})` succeeds.  The class-based
encoding does ignore them (second conjunct), but the interface-based
`object` of src/src/schema.ts iterates the INPUT's entries, so the
undeclared key `extra` makes `fields["extra"]` `undefined` and the
`.parse` call raises a runtime fault (first conjunct). -/
theorem object_extra_key_faults_ts_encoding :
    tparse (.tObject [("a", .tString)])
        (.obj [("a", .str "x"), ("extra", .num 1)]) =
      .error (.jsFault "Cannot read properties of undefined (reading 'parse')") ∧
    parse (.zObject [("a", .zString [])])
        (.obj [("a", .str "x"), ("extra", .num 1)]) =
      .ok (.obj [("a", .str "x"), ("extra", .num 1)]) := by
  constructor
  · have e1 : lookupSchema [("a", .tString)] "a" = some .tString := rfl
    have e2 : lookupSchema [("a", .tString)] "extra" = none := rfl
    simp only [tparse, jsEntries, tparseEntries_cons, e1, e2]
  · have g1 : jsGet (.obj [("a", .str "x"), ("extra", .num 1)]) "a" = .str "x" := rfl
    simp only [parse, parseFields, g1, runCheckers]

/-- C4 counterexample.  The claim says the engine's validation-failure kinds
(TypeMismatch, ConstraintViolation, NoMatchingVariant, CombinedFailure) are
all caught and counted as branch failures by Union/Intersection.  Here both
intersection branches fail with a `ConstraintViolation` (a plain `Error`),
which per the claim would make the intersection fail with a
`CombinedFailure`; the code counts neither (only `TypeError` instances are
pushed) and returns the input as a success. -/
theorem intersection_swallows_both_constraint_violations :
    parse (.zIntersection (stringMin [] 5) (stringMin [] 6)) (.str "ab") =
      .ok (.str "ab") := by
  simp only [stringMin, parse]
  rfl

/-- C4 amended.  What the code actually does: a Union/Intersection branch
failure is counted for aggregation exactly when the thrown error is a
`TypeError` instance (the TypeMismatch failures of String, Number and
Array); every other error raised in a branch - including the engine's own
ConstraintViolation, NoMatchingVariant, CombinedFailure and Object's
TypeMismatch - is caught and silently discarded, counting as neither a
success nor a branch failure, and nothing raised in a branch propagates to
the caller.  Hence a union fails iff every branch fails with a `TypeError`,
and an intersection fails iff both children fail with a `TypeError`. -/
theorem only_typeError_counts_as_branch_failure :
    (∀ (ts : List ZodSchema) (v : Value),
       isOk (parse (.zUnion ts) v) = false ↔
         ∀ t ∈ ts, ∃ m, parse t v = .error (.typeError m)) ∧
    (∀ (l r : ZodSchema) (v : Value),
       isOk (parse (.zIntersection l r) v) = false ↔
         (∃ m, parse l v = .error (.typeError m)) ∧
         (∃ m, parse r v = .error (.typeError m))) :=
  ⟨union_fail_iff, intersection_fail_iff⟩

/-- C4 witness: the amended theorem applied at the concrete union
`Union([String])` and the input `0`. -/
theorem only_typeError_counts_witness :
    (∀ t ∈ [ZodSchema.zString []], ∃ m, parse t (.num 0) = .error (.typeError m)) ∧
    isOk (parse (.zUnion [ZodSchema.zString []]) (.num 0)) = false := by
  have hall : ∀ t ∈ [ZodSchema.zString []],
      ∃ m, parse t (.num 0) = .error (.typeError m) := by
    intro t ht
    simp only [List.mem_singleton] at ht
    subst ht
    exact ⟨"Not a string", by simp [parse]⟩
  exact ⟨hall,
    (only_typeError_counts_as_branch_failure.1 [ZodSchema.zString []] (.num 0)).mpr hall⟩

/-- C5.  The claim says object `parse` validates each declared field, an
absent key yielding the absence sentinel; its concrete examples hold in the
class-based encoding (conjuncts 2-4), but the general sentence fails for the
interface-based `object` of src/src/schema.ts, which iterates the input's
entries: `object({a: string()}).parse({})` validates nothing and succeeds
even though the declared non-optional field `a` is absent (conjunct 1). -/
theorem object_declared_field_validation :
    tparse (.tObject [("a", .tString)]) (.obj []) = .ok (.obj []) ∧
    parse (.zObject [("a", .zString []), ("b", .zOptional (.zNumber []))])
        (.obj [("a", .str "x")]) = .ok (.obj [("a", .str "x")]) ∧
    parse (.zObject [("a", .zString []), ("b", .zOptional (.zNumber []))])
        (.obj [("a", .num 1)]) = .error (.typeError "Not a string") ∧
    parse (.zObject [("a", .zString [])]) (.obj []) =
      .error (.typeError "Not a string") := by
  refine ⟨?_, ?_, ?_, ?_⟩
  · simp only [tparse, jsEntries, tparseEntries]
  · have g1 : jsGet (.obj [("a", .str "x")]) "a" = .str "x" := rfl
    have g2 : jsGet (.obj [("a", .str "x")]) "b" = .undefined := rfl
    simp only [parse, parseFields, g1, g2, runCheckers]
  · have g1 : jsGet (.obj [("a", .num 1)]) "a" = .num 1 := rfl
    simp only [parse, parseFields, g1, runCheckers]
  · have g1 : jsGet (.obj ([] : List (String × Value))) "a" = .undefined := rfl
    simp only [parse, parseFields, g1, runCheckers]

/-- C6 counterexample.  The claim says the two encodings agree on acceptance
for every schema expressible in both.  They do not: on the object schema
`{a: String}` with input `{}`, the interface-based encoding accepts (it
iterates the empty input and never checks the declared field) while the
class-based encoding rejects (field `a` reads as `undefined`, failing the
string check). -/
theorem encodings_disagree_on_object :
    isOk (tparse (.tObject [("a", .tString)]) (.obj [])) = true ∧
    isOk (parse (toZod (.tObject [("a", .tString)])) (.obj [])) = false := by
  constructor
  · simp only [tparse, jsEntries, tparseEntries]
    rfl
  · have g1 : jsGet (.obj ([] : List (String × Value))) "a" = .undefined := rfl
    simp only [toZod, toZodFields, parse, parseFields, g1, runCheckers]
    rfl

/-- C6 amended.  The two encodings agree on acceptance versus rejection for
every schema expressible in both that contains no object node (string,
number, unknown, and arrays over these); the object schemas are where they
diverge. -/
theorem encodings_agree_object_free (S : TsSchema) (h : objectFree S = true)
    (v : Value) : isOk (tparse S v) = isOk (parse (toZod S) v) :=
  agree_object_free S h v

/-- C6 witness: the amended theorem applied to the object-free schema
`array(string())` at the input `["a", 1]`. -/
theorem encodings_agree_object_free_witness :
    objectFree (.tArray .tString) = true ∧
    isOk (tparse (.tArray .tString) (.arr [.str "a", .num 1])) =
      isOk (parse (toZod (.tArray .tString)) (.arr [.str "a", .num 1])) :=
  ⟨rfl, encodings_agree_object_free (.tArray .tString) rfl
    (.arr [.str "a", .num 1])⟩

/-- C7.  After the primitive-type check succeeds, refinements run strictly
in append order: if every checker before `c` accepts the value and `c`
rejects it, the node fails with a plain-`Error` ConstraintViolation carrying
exactly `c`'s fixed message, whatever checkers follow `c` (first and second
conjuncts, for String and Number).  In particular `String.min(n).parse(s)`
fails, with the min checker's ConstraintViolation message, precisely when
`length(s) < n` (third conjunct). -/
theorem refinements_run_in_order_first_failure_wins :
    (∀ (cs₁ cs₂ : List (ZodChecker String)) (c : ZodChecker String) (s : String),
       (∀ c' ∈ cs₁, c'.checker s = true) → c.checker s = false →
       parse (.zString (cs₁ ++ c :: cs₂)) (.str s) = .error (.error c.message)) ∧
    (∀ (cs₁ cs₂ : List (ZodChecker Int)) (c : ZodChecker Int) (x : Int),
       (∀ c' ∈ cs₁, c'.checker x = true) → c.checker x = false →
       parse (.zNumber (cs₁ ++ c :: cs₂)) (.num x) = .error (.error c.message)) ∧
    (∀ (n : Nat) (s : String),
       parse (stringMin [] n) (.str s) =
         if s.length < n then
           .error (.error ("Must be at least " ++ toString n ++ " characters"))
         else .ok (.str s)) := by
  refine ⟨?_, ?_, ?_⟩
  · intro cs₁ cs₂ c s hpass hfail
    simp only [parse]
    rw [runCheckers_prefix_pass cs₁ (c :: cs₂) s hpass]
    simp [runCheckers, hfail]
  · intro cs₁ cs₂ c x hpass hfail
    simp only [parse]
    rw [runCheckers_prefix_pass cs₁ (c :: cs₂) x hpass]
    simp [runCheckers, hfail]
  · intro n s
    rcases Nat.lt_or_ge s.length n with h | h
    · have hd : decide (s.length ≥ n) = false := decide_eq_false (by omega)
      simp [stringMin, parse, runCheckers, hd, h]
    · have hd : decide (s.length ≥ n) = true := decide_eq_true (by omega)
      simp [stringMin, parse, runCheckers, hd, Nat.not_lt.mpr h]

/-- C7 witness: the first conjunct applied with an empty prefix, the checker
requiring length at least 3, no trailing checkers, and the input "ab". -/
theorem refinements_first_failure_witness :
    ((∀ c' ∈ ([] : List (ZodChecker String)), c'.checker "ab" = true) ∧
     (ZodChecker.mk "too short" (fun t => decide (3 ≤ t.length))).checker "ab"
       = false) ∧
    parse (.zString ([] ++
        (ZodChecker.mk "too short" (fun t => decide (3 ≤ t.length))) :: []))
      (.str "ab") = .error (.error "too short") :=
  ⟨⟨by simp, by rfl⟩,
    refinements_run_in_order_first_failure_wins.1 [] []
      (ZodChecker.mk "too short" (fun t => decide (3 ≤ t.length))) "ab"
      (by simp) (by rfl)⟩

/-- C8.  Each refinement call (min or max on String/Number) returns a new
leaf schema whose checker list is the receiver's list with exactly one
predicate appended; the receiver itself is left intact as the prefix, and
the new schema's accepted-value set is the receiver's accepted-value set
intersected with the new predicate - so the parent schema's accepted set is
referenced unchanged on the right-hand side of each equation. -/
theorem refinement_appends_and_preserves_parent :
    (∀ (cs : List (ZodChecker String)) (n : Nat), ∃ c,
       stringMin cs n = .zString (cs ++ [c]) ∧
       ∀ v, isOk (parse (stringMin cs n) v) =
         (isOk (parse (.zString cs) v) && strLenAtLeast n v)) ∧
    (∀ (cs : List (ZodChecker String)) (n : Nat), ∃ c,
       stringMax cs n = .zString (cs ++ [c]) ∧
       ∀ v, isOk (parse (stringMax cs n) v) =
         (isOk (parse (.zString cs) v) && strLenAtMost n v)) ∧
    (∀ (cs : List (ZodChecker Int)) (m : Int), ∃ c,
       numberMin cs m = .zNumber (cs ++ [c]) ∧
       ∀ v, isOk (parse (numberMin cs m) v) =
         (isOk (parse (.zNumber cs) v) && numAtLeast m v)) ∧
    (∀ (cs : List (ZodChecker Int)) (m : Int), ∃ c,
       numberMax cs m = .zNumber (cs ++ [c]) ∧
       ∀ v, isOk (parse (numberMax cs m) v) =
         (isOk (parse (.zNumber cs) v) && numAtMost m v)) := by
  refine ⟨fun cs n => ⟨_, rfl, fun v => ?_⟩, fun cs n => ⟨_, rfl, fun v => ?_⟩,
    fun cs m => ⟨_, rfl, fun v => ?_⟩, fun cs m => ⟨_, rfl, fun v => ?_⟩⟩
  · rw [show stringMin cs n = .zString (cs ++
      [ZodChecker.mk ("Must be at least " ++ toString n ++ " characters")
        (fun value => decide (value.length ≥ n))]) from rfl]
    rw [parse_zString_isOk, parse_zString_isOk]
    cases v <;> simp [strLenAtLeast, runCheckers_append_single]
  · rw [show stringMax cs n = .zString (cs ++
      [ZodChecker.mk ("Must be at most " ++ toString n ++ " characters")
        (fun value => decide (value.length ≤ n))]) from rfl]
    rw [parse_zString_isOk, parse_zString_isOk]
    cases v <;> simp [strLenAtMost, runCheckers_append_single]
  · rw [show numberMin cs m = .zNumber (cs ++
      [ZodChecker.mk ("Must be at least " ++ toString m)
        (fun value => decide (value ≥ m))]) from rfl]
    rw [parse_zNumber_isOk, parse_zNumber_isOk]
    cases v <;> simp [numAtLeast, runCheckers_append_single]
  · rw [show numberMax cs m = .zNumber (cs ++
      [ZodChecker.mk ("Must be at most " ++ toString m)
        (fun value => decide (value ≤ m))]) from rfl]
    rw [parse_zNumber_isOk, parse_zNumber_isOk]
    cases v <;> simp [numAtMost, runCheckers_append_single]

/-- C9.  The claim says parse is idempotent on its own validated outputs.
The code violates it: `S = Union([String.min(5), Number])` parses "ab"
successfully (the ConstraintViolation is swallowed and the union falls
through, returning `undefined`), but re-parsing that output `undefined`
fails, because now both branches throw a counted `TypeError`. -/
theorem reparse_of_union_output_fails :
    parse (.zUnion [stringMin [] 5, .zNumber []]) (.str "ab") = .ok .undefined ∧
    isOk (parse (.zUnion [stringMin [] 5, .zNumber []]) .undefined) = false := by
  constructor
  · simp only [stringMin, parse, unionGo]
    rfl
  · simp only [stringMin, parse, unionGo]
    rfl

/-- C10.  In the class-based encoding the absence sentinel is exactly
`undefined`: Optional short-circuits on it without consulting the child
(the result does not depend on `S`), while any other value - `null`
included - is delegated to the child unchanged; and both encodings' object
parse reject `null` itself as not an object. -/
theorem optional_absence_sentinel :
    (∀ S : ZodSchema, parse (.zOptional S) .undefined = .ok .undefined) ∧
    (∀ (S : ZodSchema) (v : Value), v ≠ .undefined →
        parse (.zOptional S) v = parse S v) ∧
    (∀ fields : List (String × ZodSchema),
        parse (.zObject fields) .vnull = .error (.error "Not an object")) ∧
    (∀ fields : List (String × TsSchema),
        tparse (.tObject fields) .vnull = .error (.zodTypeError "Invalid object")) := by
  refine ⟨fun S => by simp [parse], fun S v hv => ?_, fun fields => by simp [parse],
    fun fields => by simp [tparse]⟩
  cases v
  case undefined => exact absurd rfl hv
  all_goals simp [parse]

/-- C10 witness: the delegation conjunct applied to the child `String` and
the present value `null`. -/
theorem optional_absence_witness :
    (Value.vnull ≠ Value.undefined) ∧
    parse (.zOptional (.zString [])) .vnull = parse (.zString []) .vnull :=
  ⟨fun h => Value.noConfusion h,
    optional_absence_sentinel.2.1 (.zString []) .vnull
      (fun h => Value.noConfusion h)⟩


